import Mathlib

/-!
# sip: the command-line entry point and the scrollback buffer

A shallow embedding of `cmd/sip/main.go`.  The Go program talks to the outside
world (the working directory, the signal machinery, the `sip` server package,
standard output); every such call is recorded as an `Event` in a trace, in
program order, and the values the outside world hands back (`os.Getwd`,
`server.ServeCommand`) are fields of an environment `Env`.

The package-level flag variables `host`, `port`, `debug`, `workDir` are the
record `Flags`.
-/

set_option autoImplicit false

namespace Sip

/-! ## Go values -/

/-- Go `error` values that are not nil.  `errorf msg` is `fmt.Errorf` without a
`%w` verb, `wrapf msg inner` is `fmt.Errorf(msg + "%w", inner)`, and `ext msg`
is an error produced outside this file (by `os` or by the `sip` package). -/
inductive GoError where
  | errorf (msg : String)
  | wrapf (msg : String) (inner : GoError)
  | ext (msg : String)
  deriving DecidableEq, Repr

/-- The method `Error()`: the message of an error. -/
def GoError.Error : GoError → String
  | .errorf msg => msg
  | .wrapf msg inner => msg ++ inner.Error
  | .ext msg => msg

/-- The function `errors.Unwrap`: the error a `%w` verb wrapped, if any. -/
def GoError.Unwrap : GoError → Option GoError
  | .wrapf _ inner => some inner
  | _ => none

/-- Signals the program can receive. -/
inductive Signal where
  | SIGHUP
  | SIGINT
  | SIGQUIT
  | SIGKILL
  | SIGTERM
  deriving DecidableEq, Repr

/-- The value `os.Interrupt`, which is `syscall.SIGINT`. -/
def osInterrupt : Signal := Signal.SIGINT

/-- Contexts: `context.Background()` and the result of
`signal.NotifyContext(parent, sigs...)`. -/
inductive Ctx where
  | background
  | notifyContext (parent : Ctx) (sigs : List Signal)
  deriving DecidableEq, Repr

/-- Whether a context is done once the process has received the signals
`received`, as long as no stop function has been called: the background context
is never done; a notify context is done when its parent is, or when one of the
signals it listens for has arrived. -/
def Ctx.cancelledBy : Ctx → List Signal → Bool
  | .background, _ => false
  | .notifyContext parent sigs, received =>
      parent.cancelledBy received || received.any (fun s => decide (s ∈ sigs))

/-- The fields of `sip.Config` that `runServer` sets in its composite literal. -/
structure Config where
  Host : String
  Port : String
  Debug : Bool
  deriving DecidableEq, Repr

/-- The command-line flag variables `host`, `port`, `debug`, `workDir`. -/
structure Flags where
  host : String
  port : String
  debug : Bool
  workDir : String
  deriving DecidableEq, Repr

/-- The defaults given at the four flag registrations in `main`. -/
def defaultFlags : Flags :=
  ⟨"localhost", "7681", false, ""⟩

/-- Log levels of `charmbracelet/log` that the program names. -/
inductive LogLevel where
  | DebugLevel
  deriving DecidableEq, Repr

/-! ## The outside world -/

/-- Calls that leave `main.go`, in the order they are made. -/
inductive Event where
  | setLogLevel (level : LogLevel)
  | getwd
  | notifyContext (ctx : Ctx)
  | newServer (config : Config)
  | printf (out : String)
  | serveCommand (config : Config) (ctx : Ctx) (command : String)
      (args : List String) (workDir : String)
  | cancel (ctx : Ctx)
  deriving DecidableEq, Repr

/-- What the outside world answers: the result of `os.Getwd()` and the result of
`server.ServeCommand(ctx, command, args, workDir)` on the server built from a
configuration (`none` is the nil error). -/
structure Env where
  getwd : Except GoError String
  serveCommand : Config → Ctx → String → List String → String → Option GoError

/-- How a Go function of result type `error` ends: it returns an error value
(`none` is nil) or it panics. -/
inductive Outcome where
  | returned (err : Option GoError)
  | panicked (msg : String)
  deriving DecidableEq, Repr

/-- A finished call: the events it caused and how it ended. -/
structure Run where
  trace : List Event
  outcome : Outcome
  deriving DecidableEq, Repr

/-- The index expression `s[0]`; `none` is the out-of-range panic. -/
def index0 (s : List String) : Option String :=
  s[0]?

/-- The slice expression `s[1:]`; `none` is the out-of-range panic. -/
def sliceFrom1 (s : List String) : Option (List String) :=
  if 1 ≤ s.length then some (s.drop 1) else none

/-- The call `strings.Join(elems, sep)`. -/
def stringsJoin (elems : List String) (sep : String) : String :=
  sep.intercalate elems

/-! ## `runServer`, the run handler and `main` -/

/-- The function `runServer(cmdArgs)`. -/
def runServer (env : Env) (fl : Flags) (cmdArgs : List String) : Run :=
  let t1 : List Event := if fl.debug then [Event.setLogLevel LogLevel.DebugLevel] else []
  let wdStep : List Event × Except GoError String :=
    if fl.workDir = "" then ([Event.getwd], env.getwd) else ([], Except.ok fl.workDir)
  match wdStep with
  | (t2, Except.error err) =>
      ⟨t1 ++ t2, Outcome.returned (some (GoError.wrapf "getting working directory: " err))⟩
  | (t2, Except.ok wd) =>
      let ctx := Ctx.notifyContext Ctx.background [osInterrupt, Signal.SIGTERM]
      let config : Config := ⟨fl.host, fl.port, fl.debug⟩
      let t3 : List Event := t1 ++ t2 ++
        [Event.notifyContext ctx, Event.newServer config,
          Event.printf ("Starting server at http://" ++ fl.host ++ ":" ++ fl.port ++ "\n"),
          Event.printf ("Running: " ++ stringsJoin cmdArgs " " ++ "\n")]
      match index0 cmdArgs, sliceFrom1 cmdArgs with
      | some command, some args =>
          ⟨t3 ++ [Event.serveCommand config ctx command args wd, Event.cancel ctx],
            Outcome.returned (env.serveCommand config ctx command args wd)⟩
      | _, _ =>
          ⟨t3 ++ [Event.cancel ctx], Outcome.panicked "index out of range"⟩

/-- The run handler `RunE` of the root command, applied to the arguments after
`--`. -/
def RunE (env : Env) (fl : Flags) (args : List String) : Run :=
  if args.length = 0 then
    ⟨[], Outcome.returned (some (GoError.errorf
      "no command specified\n\nUsage: sip [flags] -- command [args...]"))⟩
  else
    runServer env fl args

/-- The call `fang.Execute(ctx, rootCmd, ...)` on a command line that parses to
the flag values `fl` and the positional arguments `args`: the root command's run
handler runs and its error is handed back. -/
def fangExecute (env : Env) (fl : Flags) (args : List String) : Run :=
  RunE env fl args

/-- The exit status of the process running `main`: `os.Exit(1)` when
`fang.Execute` returns a non-nil error, a normal return (status 0) when it
returns nil, and status 2 of the Go runtime on a panic. -/
def mainExitStatus (env : Env) (fl : Flags) (args : List String) : Nat :=
  match (fangExecute env fl args).outcome with
  | Outcome.returned none => 0
  | Outcome.returned (some _) => 1
  | Outcome.panicked _ => 2

/-! ## Reading a trace -/

/-- The configurations passed to `sip.NewServer`, in order. -/
def newServerConfigs : List Event → List Config
  | [] => []
  | Event.newServer c :: t => c :: newServerConfigs t
  | _ :: t => newServerConfigs t

/-- The calls of `ServeCommand` as (context, command, args, workDir), in order. -/
def serveCalls : List Event → List (Ctx × String × List String × String)
  | [] => []
  | Event.serveCommand _ ctx command args wd :: t => (ctx, command, args, wd) :: serveCalls t
  | _ :: t => serveCalls t

/-- Whether an event is a call of a cancel function. -/
def Event.isCancel : Event → Bool
  | Event.cancel _ => true
  | _ => false

/-- Whether an event is a call of `os.Getwd`. -/
def Event.isGetwd : Event → Bool
  | Event.getwd => true
  | _ => false

/-- Whether an event is one of: setting up the signal context, building the
server, printing, serving, cancelling. -/
def Event.afterWorkDir : Event → Bool
  | Event.setLogLevel _ => false
  | Event.getwd => false
  | _ => true

/-- The working directory `runServer` settles on, when it does. -/
def resolvedWorkDir (env : Env) (fl : Flags) : Option String :=
  if fl.workDir = "" then
    match env.getwd with
    | Except.ok wd => some wd
    | Except.error _ => none
  else some fl.workDir

/-- The context `runServer` builds: the background context, cancelled on
`os.Interrupt` or `SIGTERM`. -/
def signalCtx : Ctx :=
  Ctx.notifyContext Ctx.background [osInterrupt, Signal.SIGTERM]

/-- The events of `runServer` up to and including the working directory step. -/
def preludeEvents (fl : Flags) : List Event :=
  (if fl.debug then [Event.setLogLevel LogLevel.DebugLevel] else []) ++
    (if fl.workDir = "" then [Event.getwd] else [])

/-- The events of `runServer` between the working directory step and the call of
`ServeCommand`. -/
def startupEvents (fl : Flags) (cmdArgs : List String) : List Event :=
  [Event.notifyContext signalCtx, Event.newServer ⟨fl.host, fl.port, fl.debug⟩,
    Event.printf ("Starting server at http://" ++ fl.host ++ ":" ++ fl.port ++ "\n"),
    Event.printf ("Running: " ++ stringsJoin cmdArgs " " ++ "\n")]

/-! ## Sample environments -/

/-- An environment where `os.Getwd` answers `/home/user` and the server shuts
down cleanly. -/
def envClean : Env :=
  ⟨Except.ok "/home/user", fun _ _ _ _ _ => none⟩

/-- An environment where `os.Getwd` answers `/home/user` and the server fails to
bind. -/
def envBindFails : Env :=
  ⟨Except.ok "/home/user", fun _ _ _ _ _ => some (GoError.ext "listen tcp: address already in use")⟩

/-- An environment where `os.Getwd` fails. -/
def envNoCwd : Env :=
  ⟨Except.error (GoError.ext "getwd: no such file or directory"), fun _ _ _ _ _ => none⟩

/-- The flags of `sip --dir /srv/a -- htop`. -/
def flagsDirA : Flags :=
  ⟨"localhost", "7681", false, "/srv/a"⟩

/-- The flags of `sip --dir /srv/b -- htop`. -/
def flagsDirB : Flags :=
  ⟨"localhost", "7681", false, "/srv/b"⟩

/-! ## The scrollback buffer -/

/-- A byte. -/
abbrev Byte := Fin 256

/-- Modelled from the spec: the ScrollbackBuffer of the `sip` package, whose
source is not part of `cmd/sip/main.go`.  A bounded byte ring of capacity
`capacity`: `cells` is the storage, `next` the cell the next byte goes to, and
`count` the number of cells that hold buffered bytes. -/
structure ScrollbackBuffer where
  capacity : Nat
  cells : List Byte
  next : Nat
  count : Nat
  deriving DecidableEq, Repr

/-- Modelled from the spec: buffer creation with capacity `C`; the ring is empty. -/
def ScrollbackBuffer.new (C : Nat) : ScrollbackBuffer :=
  ⟨C, List.replicate C 0, 0, 0⟩

/-- Modelled from the spec: one byte is put into the ring; once the ring is full
it lands on the cell of the oldest byte, which is overwritten. -/
def ScrollbackBuffer.writeByte (r : ScrollbackBuffer) (b : Byte) : ScrollbackBuffer :=
  if r.capacity = 0 then r
  else ⟨r.capacity, r.cells.set r.next b, (r.next + 1) % r.capacity,
    min (r.count + 1) r.capacity⟩

/-- Modelled from the spec: `Append(bytes)` appends to the ring, overwriting the
oldest bytes once the capacity is exceeded, in time linear in `bytes`. -/
def ScrollbackBuffer.Append (r : ScrollbackBuffer) (bytes : List Byte) : ScrollbackBuffer :=
  bytes.foldl ScrollbackBuffer.writeByte r

/-- Modelled from the spec: `Snapshot()` returns the current buffered contents in
emission order, that is starting at the cell of the oldest buffered byte. -/
def ScrollbackBuffer.Snapshot (r : ScrollbackBuffer) : List Byte :=
  (List.range r.count).map
    (fun i => r.cells.getD ((r.next + r.capacity - r.count + i) % r.capacity) 0)

/-- The last `n` bytes of a byte sequence (all of it when it is shorter). -/
def lastBytes (n : Nat) (s : List Byte) : List Byte :=
  s.drop (s.length - n)

/-- The buffer of capacity `C` after a sequence of `Append` calls, one per chunk. -/
def afterAppends (C : Nat) (chunks : List (List Byte)) : ScrollbackBuffer :=
  chunks.foldl ScrollbackBuffer.Append (ScrollbackBuffer.new C)

/-- The ring invariant: `r` holds the stream `s` emitted so far.  Byte number `j`
of the stream lives in cell `j % capacity` for as long as it is among the last
`capacity` bytes. -/
structure RingInv (r : ScrollbackBuffer) (s : List Byte) : Prop where
  len : r.cells.length = r.capacity
  next_eq : r.next = s.length % r.capacity
  count_eq : r.count = min s.length r.capacity
  cell : ∀ j, j < s.length → s.length - j ≤ r.capacity →
    r.cells.getD (j % r.capacity) 0 = s.getD j 0

/-! ## Lemmas on `runServer` -/

theorem index0_cons (command : String) (args : List String) :
    index0 (command :: args) = some command := by
  simp [index0]

theorem sliceFrom1_cons (command : String) (args : List String) :
    sliceFrom1 (command :: args) = some args := by
  simp [sliceFrom1]

theorem runServer_cons (env : Env) (fl : Flags) (command : String) (args : List String)
    (wd : String) (hwd : resolvedWorkDir env fl = some wd) :
    runServer env fl (command :: args) =
      ⟨preludeEvents fl ++ startupEvents fl (command :: args) ++
          [Event.serveCommand ⟨fl.host, fl.port, fl.debug⟩ signalCtx command args wd,
            Event.cancel signalCtx],
        Outcome.returned
          (env.serveCommand ⟨fl.host, fl.port, fl.debug⟩ signalCtx command args wd)⟩ := by
  unfold resolvedWorkDir at hwd
  unfold runServer preludeEvents startupEvents signalCtx
  by_cases hd : fl.workDir = ""
  · rw [if_pos hd] at hwd
    cases hg : env.getwd with
    | error e => rw [hg] at hwd; cases hwd
    | ok d =>
      rw [hg] at hwd
      cases hwd
      simp [hd, hg, index0_cons, sliceFrom1_cons]
  · rw [if_neg hd] at hwd
    cases hwd
    simp [hd, index0_cons, sliceFrom1_cons]

theorem runServer_getwd_error (env : Env) (fl : Flags) (cmdArgs : List String) (e : GoError)
    (hd : fl.workDir = "") (hg : env.getwd = Except.error e) :
    runServer env fl cmdArgs =
      ⟨preludeEvents fl,
        Outcome.returned (some (GoError.wrapf "getting working directory: " e))⟩ := by
  unfold runServer preludeEvents
  simp [hd, hg]

theorem runServer_nil (env : Env) (fl : Flags) (wd : String)
    (hwd : resolvedWorkDir env fl = some wd) :
    runServer env fl [] =
      ⟨preludeEvents fl ++ startupEvents fl [] ++ [Event.cancel signalCtx],
        Outcome.panicked "index out of range"⟩ := by
  unfold resolvedWorkDir at hwd
  unfold runServer preludeEvents startupEvents signalCtx
  by_cases hd : fl.workDir = ""
  · rw [if_pos hd] at hwd
    cases hg : env.getwd with
    | error e => rw [hg] at hwd; cases hwd
    | ok d => simp [hd, hg, index0, sliceFrom1]
  · simp [hd, index0, sliceFrom1]

theorem serveCalls_append (t u : List Event) :
    serveCalls (t ++ u) = serveCalls t ++ serveCalls u := by
  induction t with
  | nil => rfl
  | cons ev t ih => cases ev <;> simp [serveCalls, ih]

theorem newServerConfigs_append (t u : List Event) :
    newServerConfigs (t ++ u) = newServerConfigs t ++ newServerConfigs u := by
  induction t with
  | nil => rfl
  | cons ev t ih => cases ev <;> simp [newServerConfigs, ih]

theorem serveCalls_prelude (fl : Flags) : serveCalls (preludeEvents fl) = [] := by
  unfold preludeEvents
  by_cases hb : fl.debug = true <;> by_cases hd : fl.workDir = "" <;>
    simp [hb, hd, serveCalls]

theorem newServerConfigs_prelude (fl : Flags) : newServerConfigs (preludeEvents fl) = [] := by
  unfold preludeEvents
  by_cases hb : fl.debug = true <;> by_cases hd : fl.workDir = "" <;>
    simp [hb, hd, newServerConfigs]

theorem prelude_no_cancel (fl : Flags) : (preludeEvents fl).any Event.isCancel = false := by
  unfold preludeEvents
  by_cases hb : fl.debug = true <;> by_cases hd : fl.workDir = "" <;>
    simp [hb, hd, Event.isCancel]

theorem prelude_not_afterWorkDir (fl : Flags) :
    (preludeEvents fl).any Event.afterWorkDir = false := by
  unfold preludeEvents
  by_cases hb : fl.debug = true <;> by_cases hd : fl.workDir = "" <;>
    simp [hb, hd, Event.afterWorkDir]

theorem RunE_of_ne_nil (env : Env) (fl : Flags) (args : List String) (hne : args ≠ []) :
    RunE env fl args = runServer env fl args := by
  unfold RunE
  have : args.length ≠ 0 := by
    intro h
    exact hne (List.length_eq_zero.mp h)
  rw [if_neg this]

theorem cancelledBy_signalCtx (received : List Signal) :
    signalCtx.cancelledBy received = true ↔
      (osInterrupt ∈ received ∨ Signal.SIGTERM ∈ received) := by
  simp only [signalCtx, Ctx.cancelledBy, Bool.false_or, List.any_eq_true, decide_eq_true_eq,
    List.mem_cons, List.mem_singleton, List.not_mem_nil, or_false]
  constructor
  · rintro ⟨s, hs, rfl | rfl⟩
    · exact Or.inl hs
    · exact Or.inr hs
  · rintro (h | h)
    · exact ⟨_, h, Or.inl rfl⟩
    · exact ⟨_, h, Or.inr rfl⟩

/-! ## The entry point: exit status and errors -/

/-- C1: with an empty argument list the run handler returns a non-nil error whose
message starts with "no command specified"; it causes no event at all, so no
server is built and `ServeCommand` is not invoked; the process exits with
status 1. -/
theorem C1_no_command_specified (env : Env) (fl : Flags) :
    (∃ e rest, (RunE env fl []).outcome = Outcome.returned (some e) ∧
        e.Error = "no command specified" ++ rest) ∧
      (RunE env fl []).trace = [] ∧
      newServerConfigs (RunE env fl []).trace = [] ∧
      serveCalls (RunE env fl []).trace = [] ∧
      mainExitStatus env fl [] = 1 := by
  refine ⟨⟨GoError.errorf "no command specified\n\nUsage: sip [flags] -- command [args...]",
    "\n\nUsage: sip [flags] -- command [args...]", rfl, ?_⟩, rfl, rfl, rfl, rfl⟩
  decide

/-- C2: for a non-empty argument list whose working directory is resolved,
`runServer` returns the very value `ServeCommand` returned on its one call, and
the exit status is 0 exactly when that value is nil, and 1 otherwise. -/
theorem C2_serve_result_is_exit_status (env : Env) (fl : Flags) (cmdArgs : List String)
    (wd : String) (hne : cmdArgs ≠ []) (hwd : resolvedWorkDir env fl = some wd) :
    ∃ command args,
      serveCalls (runServer env fl cmdArgs).trace = [(signalCtx, command, args, wd)] ∧
      (runServer env fl cmdArgs).outcome = Outcome.returned
        (env.serveCommand ⟨fl.host, fl.port, fl.debug⟩ signalCtx command args wd) ∧
      (mainExitStatus env fl cmdArgs = 0 ↔
        env.serveCommand ⟨fl.host, fl.port, fl.debug⟩ signalCtx command args wd = none) ∧
      (env.serveCommand ⟨fl.host, fl.port, fl.debug⟩ signalCtx command args wd ≠ none →
        mainExitStatus env fl cmdArgs = 1) := by
  cases cmdArgs with
  | nil => exact absurd rfl hne
  | cons command args =>
    refine ⟨command, args, ?_, ?_, ?_, ?_⟩
    · rw [runServer_cons env fl command args wd hwd]
      simp [serveCalls_append, serveCalls_prelude, startupEvents, serveCalls]
    · rw [runServer_cons env fl command args wd hwd]
    · unfold mainExitStatus fangExecute
      rw [RunE_of_ne_nil env fl _ hne, runServer_cons env fl command args wd hwd]
      cases env.serveCommand ⟨fl.host, fl.port, fl.debug⟩ signalCtx command args wd <;> simp
    · unfold mainExitStatus fangExecute
      rw [RunE_of_ne_nil env fl _ hne, runServer_cons env fl command args wd hwd]
      cases env.serveCommand ⟨fl.host, fl.port, fl.debug⟩ signalCtx command args wd <;> simp

/-- Witness of C2: a server that fails to bind, default flags, `sip -- htop`. -/
theorem C2_serve_result_is_exit_status_witness :
    (["htop"] ≠ [] ∧ resolvedWorkDir envBindFails defaultFlags = some "/home/user") ∧
    ∃ command args,
      serveCalls (runServer envBindFails defaultFlags ["htop"]).trace =
        [(signalCtx, command, args, "/home/user")] ∧
      (runServer envBindFails defaultFlags ["htop"]).outcome = Outcome.returned
        (envBindFails.serveCommand ⟨"localhost", "7681", false⟩ signalCtx command args
          "/home/user") ∧
      (mainExitStatus envBindFails defaultFlags ["htop"] = 0 ↔
        envBindFails.serveCommand ⟨"localhost", "7681", false⟩ signalCtx command args
          "/home/user" = none) ∧
      (envBindFails.serveCommand ⟨"localhost", "7681", false⟩ signalCtx command args
          "/home/user" ≠ none →
        mainExitStatus envBindFails defaultFlags ["htop"] = 1) :=
  ⟨⟨by decide, by decide⟩,
    C2_serve_result_is_exit_status envBindFails defaultFlags ["htop"] "/home/user"
      (by decide) (by decide)⟩

/-- C9: when `--dir` is empty and `os.Getwd` fails with `e`, `runServer` returns
a non-nil error that wraps `e` and whose message is "getting working directory: "
followed by the message of `e`; the trace ends at the `os.Getwd` call: no signal
context, no `sip.NewServer`, no output, no `ServeCommand`. -/
theorem C9_getwd_failure (env : Env) (fl : Flags) (cmdArgs : List String) (e : GoError)
    (hd : fl.workDir = "") (hg : env.getwd = Except.error e) :
    (∃ err, (runServer env fl cmdArgs).outcome = Outcome.returned (some err) ∧
        err.Unwrap = some e ∧
        err.Error = "getting working directory: " ++ e.Error) ∧
      (runServer env fl cmdArgs).trace =
        (if fl.debug then [Event.setLogLevel LogLevel.DebugLevel] else []) ++ [Event.getwd] ∧
      (runServer env fl cmdArgs).trace.any Event.afterWorkDir = false ∧
      newServerConfigs (runServer env fl cmdArgs).trace = [] ∧
      serveCalls (runServer env fl cmdArgs).trace = [] := by
  rw [runServer_getwd_error env fl cmdArgs e hd hg]
  refine ⟨⟨_, rfl, rfl, rfl⟩, ?_, prelude_not_afterWorkDir fl, newServerConfigs_prelude fl,
    serveCalls_prelude fl⟩
  simp [preludeEvents, hd]

/-- Witness of C9: no readable working directory, default flags, `sip -- htop`. -/
theorem C9_getwd_failure_witness :
    (defaultFlags.workDir = "" ∧
      envNoCwd.getwd = Except.error (GoError.ext "getwd: no such file or directory")) ∧
    (runServer envNoCwd defaultFlags ["htop"]).trace = [Event.getwd] :=
  ⟨⟨by decide, rfl⟩,
    (C9_getwd_failure envNoCwd defaultFlags ["htop"]
      (GoError.ext "getwd: no such file or directory") (by decide) rfl).2.1⟩

/-- C10: the run handler never panics, on any argument list; it hands a list to
`runServer` only when the list is non-empty, and for a non-empty list both
`cmdArgs[0]` and `cmdArgs[1:]` are in bounds and `runServer` does not panic. -/
theorem C10_indexing_in_bounds (env : Env) (fl : Flags) (cmdArgs : List String) :
    (∀ msg, (RunE env fl cmdArgs).outcome ≠ Outcome.panicked msg) ∧
      (cmdArgs.length = 0 → (RunE env fl cmdArgs).trace = []) ∧
      (0 < cmdArgs.length →
        RunE env fl cmdArgs = runServer env fl cmdArgs ∧
        index0 cmdArgs = some (cmdArgs.headD "") ∧
        sliceFrom1 cmdArgs = some cmdArgs.tail ∧
        ∀ msg, (runServer env fl cmdArgs).outcome ≠ Outcome.panicked msg) := by
  have key : ∀ command args msg,
      (runServer env fl (command :: args)).outcome ≠ Outcome.panicked msg := by
    intro command args msg
    cases hr : resolvedWorkDir env fl with
    | some wd =>
      rw [runServer_cons env fl command args wd hr]
      simp
    | none =>
      unfold resolvedWorkDir at hr
      by_cases hd : fl.workDir = ""
      · rw [if_pos hd] at hr
        cases hg : env.getwd with
        | ok d => rw [hg] at hr; cases hr
        | error e =>
          rw [runServer_getwd_error env fl _ e hd hg]
          simp
      · rw [if_neg hd] at hr
        cases hr
  cases cmdArgs with
  | nil =>
    refine ⟨?_, fun _ => rfl, fun h => absurd h (by simp)⟩
    intro msg
    simp [RunE]
  | cons command args =>
    have hne : command :: args ≠ [] := by simp
    refine ⟨?_, fun h => absurd h (by simp), fun _ => ⟨RunE_of_ne_nil env fl _ hne, ?_, ?_, ?_⟩⟩
    · intro msg
      rw [RunE_of_ne_nil env fl _ hne]
      exact key command args msg
    · simp [index0]
    · simp [sliceFrom1]
    · exact key command args

/-- Witness of C10: `sip -- bash -l` with default flags. -/
theorem C10_indexing_in_bounds_witness :
    0 < ["bash", "-l"].length ∧
      index0 ["bash", "-l"] = some "bash" ∧ sliceFrom1 ["bash", "-l"] = some ["-l"] :=
  ⟨by decide,
    ((C10_indexing_in_bounds envClean defaultFlags ["bash", "-l"]).2.2 (by decide)).2.1,
    ((C10_indexing_in_bounds envClean defaultFlags ["bash", "-l"]).2.2 (by decide)).2.2.1⟩

/-! ## The entry point: what is handed to the server -/

/-- C3 fails as stated: two runs that differ only in `--dir` hand the same
configuration to `sip.NewServer`, so no reading of the configuration yields the
working directory override; the override reaches `ServeCommand` instead. -/
theorem C3_config_lacks_workDir :
    flagsDirA.workDir ≠ flagsDirB.workDir ∧
      newServerConfigs (runServer envClean flagsDirA ["htop"]).trace =
        [⟨"localhost", "7681", false⟩] ∧
      newServerConfigs (runServer envClean flagsDirB ["htop"]).trace =
        [⟨"localhost", "7681", false⟩] ∧
      ¬ ∃ dirOf : Config → String, ∀ fl : Flags,
          ∀ c ∈ newServerConfigs (runServer envClean fl ["htop"]).trace,
            dirOf c = fl.workDir := by
  have hA : newServerConfigs (runServer envClean flagsDirA ["htop"]).trace =
      [⟨"localhost", "7681", false⟩] := by decide
  have hB : newServerConfigs (runServer envClean flagsDirB ["htop"]).trace =
      [⟨"localhost", "7681", false⟩] := by decide
  refine ⟨by decide, hA, hB, ?_⟩
  rintro ⟨dirOf, h⟩
  have h1 := h flagsDirA ⟨"localhost", "7681", false⟩ (by rw [hA]; simp)
  have h2 := h flagsDirB ⟨"localhost", "7681", false⟩ (by rw [hB]; simp)
  rw [h1] at h2
  revert h2
  decide

/-- C3 as amended: for a non-empty argument list whose working directory is
resolved, `sip.NewServer` is called once, with the single configuration value
made of the host, port and debug flags; the working directory is handed over
separately, as the `workDir` argument of the one `ServeCommand` call, and it is
the `--dir` value whenever that is non-empty. -/
theorem C3_settings_handed_over (env : Env) (fl : Flags) (cmdArgs : List String)
    (wd : String) (hne : cmdArgs ≠ []) (hwd : resolvedWorkDir env fl = some wd) :
    newServerConfigs (runServer env fl cmdArgs).trace = [⟨fl.host, fl.port, fl.debug⟩] ∧
      (serveCalls (runServer env fl cmdArgs).trace).map (fun c => c.2.2.2) = [wd] ∧
      (fl.workDir ≠ "" → wd = fl.workDir) := by
  cases cmdArgs with
  | nil => exact absurd rfl hne
  | cons command args =>
    rw [runServer_cons env fl command args wd hwd]
    refine ⟨?_, ?_, ?_⟩
    · simp [newServerConfigs_append, newServerConfigs_prelude, startupEvents, newServerConfigs]
    · simp [serveCalls_append, serveCalls_prelude, startupEvents, serveCalls]
    · intro hd
      unfold resolvedWorkDir at hwd
      rw [if_neg hd] at hwd
      cases hwd
      rfl

/-- Witness of C3 as amended: `sip --dir /srv/a -- htop`. -/
theorem C3_settings_handed_over_witness :
    (["htop"] ≠ [] ∧ resolvedWorkDir envClean flagsDirA = some "/srv/a") ∧
    newServerConfigs (runServer envClean flagsDirA ["htop"]).trace =
        [⟨"localhost", "7681", false⟩] ∧
      (serveCalls (runServer envClean flagsDirA ["htop"]).trace).map (fun c => c.2.2.2) =
        ["/srv/a"] ∧
      (flagsDirA.workDir ≠ "" → "/srv/a" = flagsDirA.workDir) :=
  ⟨⟨by decide, by decide⟩,
    C3_settings_handed_over envClean flagsDirA ["htop"] "/srv/a" (by decide) (by decide)⟩

/-- C4 fails as stated: with `--dir` empty and `os.Getwd` failing, the non-empty
argument list `htop` leads to no `ServeCommand` call at all. -/
theorem C4_not_invoked_without_workDir :
    (["htop"] : List String) ≠ [] ∧
      serveCalls (runServer envNoCwd defaultFlags ["htop"]).trace = [] ∧
      serveCalls (RunE envNoCwd defaultFlags ["htop"]).trace = [] := by
  decide

/-- C4 as amended: for a non-empty argument list whose working directory is
resolved, `ServeCommand` is invoked exactly once, with `command = cmdArgs[0]` and
`args = cmdArgs[1:]`, and `command` followed by `args` is the original list. -/
theorem C4_command_and_args (env : Env) (fl : Flags) (cmdArgs : List String)
    (wd : String) (hne : cmdArgs ≠ []) (hwd : resolvedWorkDir env fl = some wd) :
    ∃ command args,
      index0 cmdArgs = some command ∧ sliceFrom1 cmdArgs = some args ∧
      command :: args = cmdArgs ∧
      serveCalls (runServer env fl cmdArgs).trace = [(signalCtx, command, args, wd)] ∧
      serveCalls (RunE env fl cmdArgs).trace = [(signalCtx, command, args, wd)] := by
  cases cmdArgs with
  | nil => exact absurd rfl hne
  | cons command args =>
    have h : serveCalls (runServer env fl (command :: args)).trace =
        [(signalCtx, command, args, wd)] := by
      rw [runServer_cons env fl command args wd hwd]
      simp [serveCalls_append, serveCalls_prelude, startupEvents, serveCalls]
    refine ⟨command, args, index0_cons _ _, sliceFrom1_cons _ _, rfl, h, ?_⟩
    rw [RunE_of_ne_nil env fl _ hne]
    exact h

/-- Witness of C4 as amended: `sip -- claude -c "a b"`; the argument holding a
space stays one argument. -/
theorem C4_command_and_args_witness :
    ((["claude", "-c", "a b"] : List String) ≠ [] ∧
      resolvedWorkDir envClean defaultFlags = some "/home/user") ∧
    ∃ command args,
      index0 ["claude", "-c", "a b"] = some command ∧
      sliceFrom1 ["claude", "-c", "a b"] = some args ∧
      command :: args = ["claude", "-c", "a b"] ∧
      serveCalls (runServer envClean defaultFlags ["claude", "-c", "a b"]).trace =
        [(signalCtx, command, args, "/home/user")] ∧
      serveCalls (RunE envClean defaultFlags ["claude", "-c", "a b"]).trace =
        [(signalCtx, command, args, "/home/user")] :=
  ⟨⟨by decide, by decide⟩,
    C4_command_and_args envClean defaultFlags ["claude", "-c", "a b"] "/home/user"
      (by decide) (by decide)⟩

/-- C5: for a non-empty argument list, a non-empty `--dir` value is the `workDir`
of the one `ServeCommand` call and `os.Getwd` is not called; with `--dir` empty
and `os.Getwd` answering `d`, the `workDir` of the one `ServeCommand` call is
`d`. -/
theorem C5_working_directory (env : Env) (fl : Flags) (cmdArgs : List String)
    (hne : cmdArgs ≠ []) :
    (fl.workDir ≠ "" →
        (∃ ctx command args,
          serveCalls (runServer env fl cmdArgs).trace = [(ctx, command, args, fl.workDir)]) ∧
        (runServer env fl cmdArgs).trace.any Event.isGetwd = false) ∧
      (∀ d, fl.workDir = "" → env.getwd = Except.ok d →
        ∃ ctx command args,
          serveCalls (runServer env fl cmdArgs).trace = [(ctx, command, args, d)]) := by
  cases cmdArgs with
  | nil => exact absurd rfl hne
  | cons command args =>
    constructor
    · intro hd
      have hwd : resolvedWorkDir env fl = some fl.workDir := by
        simp [resolvedWorkDir, hd]
      rw [runServer_cons env fl command args fl.workDir hwd]
      refine ⟨⟨signalCtx, command, args, ?_⟩, ?_⟩
      · simp [serveCalls_append, serveCalls_prelude, startupEvents, serveCalls]
      · by_cases hb : fl.debug = true <;>
          simp [preludeEvents, startupEvents, hd, hb, Event.isGetwd]
    · intro d hd hg
      have hwd : resolvedWorkDir env fl = some d := by
        simp [resolvedWorkDir, hd, hg]
      rw [runServer_cons env fl command args d hwd]
      refine ⟨signalCtx, command, args, ?_⟩
      simp [serveCalls_append, serveCalls_prelude, startupEvents, serveCalls]

/-- Witness of C5: `sip --dir /srv/b -- htop`, where the process itself runs in
`/home/user`. -/
theorem C5_working_directory_witness :
    ((["htop"] : List String) ≠ [] ∧ flagsDirB.workDir ≠ "") ∧
    (∃ ctx command args,
      serveCalls (runServer envClean flagsDirB ["htop"]).trace =
        [(ctx, command, args, flagsDirB.workDir)]) ∧
    (runServer envClean flagsDirB ["htop"]).trace.any Event.isGetwd = false :=
  ⟨⟨by decide, by decide⟩,
    (C5_working_directory envClean flagsDirB ["htop"] (by decide)).1 (by decide)⟩

/-- C6: every configuration the run handler gives to `sip.NewServer` has `Host`,
`Port` and `Debug` equal to the host, port and debug flags, and for a non-empty
argument list whose working directory is resolved there is exactly one; with the
registered defaults it is `localhost`, `7681`, `false`, and the default of
`--dir` is the empty string. -/
theorem C6_config_from_flags (env : Env) (fl : Flags) (args : List String) :
    (∀ c ∈ newServerConfigs (RunE env fl args).trace,
        c.Host = fl.host ∧ c.Port = fl.port ∧ c.Debug = fl.debug) ∧
      (args ≠ [] → resolvedWorkDir env fl ≠ none →
        newServerConfigs (RunE env fl args).trace = [⟨fl.host, fl.port, fl.debug⟩]) ∧
      (∀ c ∈ newServerConfigs (RunE env defaultFlags args).trace,
        c = ⟨"localhost", "7681", false⟩) ∧
      defaultFlags = ⟨"localhost", "7681", false, ""⟩ ∧
      defaultFlags.workDir = "" := by
  have gen : ∀ fl : Flags, ∀ c ∈ newServerConfigs (RunE env fl args).trace,
      c = ⟨fl.host, fl.port, fl.debug⟩ := by
    intro fl c hc
    cases args with
    | nil => simp [RunE, newServerConfigs] at hc
    | cons command rest =>
      rw [RunE_of_ne_nil env fl _ (by simp)] at hc
      cases hr : resolvedWorkDir env fl with
      | some wd =>
        rw [runServer_cons env fl command rest wd hr] at hc
        simpa [newServerConfigs_append, newServerConfigs_prelude, startupEvents,
          newServerConfigs] using hc
      | none =>
        unfold resolvedWorkDir at hr
        by_cases hd : fl.workDir = ""
        · rw [if_pos hd] at hr
          cases hg : env.getwd with
          | ok d => rw [hg] at hr; cases hr
          | error e =>
            rw [runServer_getwd_error env fl _ e hd hg] at hc
            simp [newServerConfigs_prelude] at hc
        · rw [if_neg hd] at hr
          cases hr
  refine ⟨?_, ?_, ?_, rfl, rfl⟩
  · intro c hc
    rw [gen fl c hc]
    exact ⟨rfl, rfl, rfl⟩
  · intro hne hr
    cases args with
    | nil => exact absurd rfl hne
    | cons command rest =>
      cases hw : resolvedWorkDir env fl with
      | none => exact absurd hw hr
      | some wd =>
        rw [RunE_of_ne_nil env fl _ hne, runServer_cons env fl command rest wd hw]
        simp [newServerConfigs_append, newServerConfigs_prelude, startupEvents,
          newServerConfigs]
  · intro c hc
    exact gen defaultFlags c hc

/-- Witness of C6: `sip -- htop` with no flags. -/
theorem C6_config_from_flags_witness :
    ((["htop"] : List String) ≠ [] ∧ resolvedWorkDir envClean defaultFlags ≠ none) ∧
    newServerConfigs (RunE envClean defaultFlags ["htop"]).trace =
      [⟨"localhost", "7681", false⟩] :=
  ⟨⟨by decide, by decide⟩,
    (C6_config_from_flags envClean defaultFlags ["htop"]).2.1 (by decide) (by decide)⟩

/-- C7: for a non-empty argument list whose working directory is resolved, the
trace of `runServer` ends with the `ServeCommand` call followed by the deferred
cancel, and no cancel comes earlier; the context passed is the background
context with notification on `os.Interrupt` and `SIGTERM`, which, until the
cancel runs, is done exactly when one of these two signals has been received. -/
theorem C7_signal_is_cancellation_source (env : Env) (fl : Flags) (cmdArgs : List String)
    (wd : String) (hne : cmdArgs ≠ []) (hwd : resolvedWorkDir env fl = some wd) :
    ∃ pre config command args ctx,
      (runServer env fl cmdArgs).trace =
        pre ++ [Event.serveCommand config ctx command args wd, Event.cancel ctx] ∧
      pre.any Event.isCancel = false ∧
      ctx = Ctx.notifyContext Ctx.background [osInterrupt, Signal.SIGTERM] ∧
      (∀ received, Ctx.background.cancelledBy received = false) ∧
      ∀ received, ctx.cancelledBy received = true ↔
        (osInterrupt ∈ received ∨ Signal.SIGTERM ∈ received) := by
  cases cmdArgs with
  | nil => exact absurd rfl hne
  | cons command args =>
    refine ⟨preludeEvents fl ++ startupEvents fl (command :: args),
      ⟨fl.host, fl.port, fl.debug⟩, command, args, signalCtx, ?_, ?_, rfl, fun _ => rfl,
      cancelledBy_signalCtx⟩
    · rw [runServer_cons env fl command args wd hwd]
    · rw [List.any_append, prelude_no_cancel]
      simp [startupEvents, Event.isCancel]

/-- Witness of C7: `sip -- htop` with default flags. -/
theorem C7_signal_is_cancellation_source_witness :
    ((["htop"] : List String) ≠ [] ∧
      resolvedWorkDir envClean defaultFlags = some "/home/user") ∧
    ∃ pre config command args ctx,
      (runServer envClean defaultFlags ["htop"]).trace =
        pre ++ [Event.serveCommand config ctx command args "/home/user", Event.cancel ctx] ∧
      pre.any Event.isCancel = false ∧
      ctx = Ctx.notifyContext Ctx.background [osInterrupt, Signal.SIGTERM] ∧
      (∀ received, Ctx.background.cancelledBy received = false) ∧
      ∀ received, ctx.cancelledBy received = true ↔
        (osInterrupt ∈ received ∨ Signal.SIGTERM ∈ received) :=
  ⟨⟨by decide, by decide⟩,
    C7_signal_is_cancellation_source envClean defaultFlags ["htop"] "/home/user"
      (by decide) (by decide)⟩

/-! ## The scrollback buffer: capacity invariant -/

theorem mod_ne_of_lt_of_sub_lt {C j n : Nat} (hj : j < n) (hd : n - j < C) :
    j % C ≠ n % C := by
  intro h
  have h1 : (n - j) % C = 0 := Nat.sub_mod_eq_zero_of_mod_eq h.symm
  have h2 : C ∣ n - j := Nat.dvd_of_mod_eq_zero h1
  have h3 : C ≤ n - j := Nat.le_of_dvd (by omega) h2
  omega

theorem ringInv_new (C : Nat) : RingInv (ScrollbackBuffer.new C) [] := by
  refine ⟨by simp [ScrollbackBuffer.new], by simp [ScrollbackBuffer.new],
    by simp [ScrollbackBuffer.new], ?_⟩
  intro j hj
  simp at hj

theorem ringInv_writeByte {r : ScrollbackBuffer} {s : List Byte} (h : RingInv r s)
    (hC : 0 < r.capacity) (b : Byte) : RingInv (r.writeByte b) (s ++ [b]) := by
  have hne : r.capacity ≠ 0 := by omega
  unfold ScrollbackBuffer.writeByte
  rw [if_neg hne]
  refine ⟨?_, ?_, ?_, ?_⟩
  · simp [h.len]
  · simp [h.next_eq, Nat.add_mod]
  · simp only [h.count_eq, List.length_append, List.length_singleton]
    omega
  · intro j hj hd
    simp only [List.length_append, List.length_singleton] at hj hd
    have hlt : s.length % r.capacity < r.capacity := Nat.mod_lt _ hC
    by_cases hjn : j = s.length
    · subst hjn
      rw [h.next_eq]
      simp [List.getD_eq_getElem?_getD, h.len, hlt]
    · have hj' : j < s.length := by omega
      have hmod : j % r.capacity ≠ s.length % r.capacity :=
        mod_ne_of_lt_of_sub_lt hj' (by omega)
      rw [h.next_eq]
      have := h.cell j hj' (by omega)
      simp only [List.getD_eq_getElem?_getD] at this ⊢
      rw [List.getElem?_set_ne (Ne.symm hmod), this, List.getElem?_append_left hj']

theorem ringInv_snapshot {r : ScrollbackBuffer} {s : List Byte} (h : RingInv r s)
    (hC : 0 < r.capacity) : r.Snapshot = lastBytes r.capacity s := by
  unfold ScrollbackBuffer.Snapshot lastBytes
  apply List.ext_getElem
  · simp [h.count_eq]
    omega
  · intro i h1 h2
    simp only [List.length_map, List.length_range] at h1
    have hc := h.count_eq
    simp only [List.getElem_map, List.getElem_range, List.getElem_drop]
    have hidx : (r.next + r.capacity - r.count + i) % r.capacity =
        (s.length - r.count + i) % r.capacity := by
      rw [h.next_eq]
      have e1 : s.length % r.capacity + r.capacity - r.count + i =
          s.length % r.capacity + (r.capacity - r.count + i) := by omega
      have e2 : s.length + (r.capacity - r.count + i) =
          (s.length - r.count + i) + r.capacity := by omega
      rw [e1, Nat.mod_add_mod, e2, Nat.add_mod_right]
    rw [hidx, h.cell (s.length - r.count + i) (by omega) (by omega)]
    rw [List.getD_eq_getElem?_getD, List.getElem?_eq_getElem (by omega)]
    simp only [Option.getD_some]
    congr 1
    omega

theorem writeByte_capacity (r : ScrollbackBuffer) (b : Byte) :
    (r.writeByte b).capacity = r.capacity := by
  unfold ScrollbackBuffer.writeByte
  split <;> rfl

theorem Append_capacity (r : ScrollbackBuffer) (bytes : List Byte) :
    (r.Append bytes).capacity = r.capacity := by
  unfold ScrollbackBuffer.Append
  induction bytes generalizing r with
  | nil => rfl
  | cons b bs ih => rw [List.foldl_cons, ih, writeByte_capacity]

theorem ringInv_Append {r : ScrollbackBuffer} {s : List Byte} (h : RingInv r s)
    (hC : 0 < r.capacity) (bytes : List Byte) : RingInv (r.Append bytes) (s ++ bytes) := by
  unfold ScrollbackBuffer.Append
  induction bytes generalizing r s with
  | nil => simpa using h
  | cons b bs ih =>
    have h1 := ringInv_writeByte h hC b
    have h2 := ih h1 (by rw [writeByte_capacity]; exact hC)
    simpa using h2

theorem afterAppends_snoc (C : Nat) (chunks : List (List Byte)) (c : List Byte) :
    afterAppends C (chunks ++ [c]) = (afterAppends C chunks).Append c := by
  simp [afterAppends]

theorem afterAppends_capacity (C : Nat) (chunks : List (List Byte)) :
    (afterAppends C chunks).capacity = C := by
  induction chunks using List.reverseRecOn with
  | nil => rfl
  | append_singleton cs c ih => rw [afterAppends_snoc, Append_capacity, ih]

theorem ringInv_afterAppends (C : Nat) (hC : 0 < C) (chunks : List (List Byte)) :
    RingInv (afterAppends C chunks) chunks.flatten := by
  induction chunks using List.reverseRecOn with
  | nil => exact ringInv_new C
  | append_singleton cs c ih =>
    rw [afterAppends_snoc]
    have := ringInv_Append ih (by rw [afterAppends_capacity]; exact hC) c
    simpa using this

theorem Append_zero (r : ScrollbackBuffer) (h0 : r.capacity = 0) (bytes : List Byte) :
    r.Append bytes = r := by
  unfold ScrollbackBuffer.Append
  induction bytes with
  | nil => rfl
  | cons b bs ih =>
    rw [List.foldl_cons]
    have : r.writeByte b = r := by
      unfold ScrollbackBuffer.writeByte
      rw [if_pos h0]
    rw [this, ih]

theorem afterAppends_zero (chunks : List (List Byte)) :
    afterAppends 0 chunks = ScrollbackBuffer.new 0 := by
  induction chunks using List.reverseRecOn with
  | nil => rfl
  | append_singleton cs c ih =>
    rw [afterAppends_snoc, ih, Append_zero _ rfl]

theorem snapshot_afterAppends (C : Nat) (chunks : List (List Byte)) :
    (afterAppends C chunks).Snapshot = lastBytes C chunks.flatten := by
  rcases Nat.eq_zero_or_pos C with h0 | hC
  · subst h0
    rw [afterAppends_zero]
    simp [ScrollbackBuffer.Snapshot, ScrollbackBuffer.new, lastBytes]
  · have h := ringInv_afterAppends C hC chunks
    have := ringInv_snapshot h (by rw [afterAppends_capacity]; exact hC)
    rw [afterAppends_capacity] at this
    exact this

/-- C8: for every capacity `C` and every sequence of `Append` calls on a new
buffer, the storage has `C` cells, at most `C` bytes are buffered, and the
snapshot is the last `min C total` bytes of the concatenation of everything
appended, in emission order: the stream is the discarded oldest bytes, exactly
`total - C` of them, followed by the snapshot.  The same holds after one more
`Append`. -/
theorem C8_scrollback_capacity (C : Nat) (chunks : List (List Byte)) :
    (afterAppends C chunks).cells.length = C ∧
    (afterAppends C chunks).count ≤ C ∧
    (afterAppends C chunks).Snapshot.length = min C chunks.flatten.length ∧
    (afterAppends C chunks).Snapshot.length ≤ C ∧
    (afterAppends C chunks).Snapshot =
      chunks.flatten.drop (chunks.flatten.length - min C chunks.flatten.length) ∧
    (∃ discarded, chunks.flatten = discarded ++ (afterAppends C chunks).Snapshot ∧
      discarded.length = chunks.flatten.length - C) ∧
    ∀ bytes, ((afterAppends C chunks).Append bytes).Snapshot =
      (chunks.flatten ++ bytes).drop
        ((chunks.flatten ++ bytes).length - min C (chunks.flatten ++ bytes).length) := by
  have hs := snapshot_afterAppends C chunks
  have hdrop : ∀ s : List Byte, s.drop (s.length - min C s.length) = lastBytes C s := by
    intro s
    unfold lastBytes
    congr 1
    omega
  have hlen : (afterAppends C chunks).Snapshot.length = min C chunks.flatten.length := by
    rw [hs]
    simp [lastBytes]
    omega
  refine ⟨?_, ?_, hlen, by omega, by rw [hdrop, hs], ?_, ?_⟩
  · rcases Nat.eq_zero_or_pos C with h0 | hC
    · subst h0
      rw [afterAppends_zero]
      rfl
    · have h := (ringInv_afterAppends C hC chunks).len
      rw [afterAppends_capacity] at h
      exact h
  · have : (afterAppends C chunks).Snapshot.length = (afterAppends C chunks).count := by
      simp [ScrollbackBuffer.Snapshot]
    omega
  · refine ⟨chunks.flatten.take (chunks.flatten.length - C), ?_, ?_⟩
    · rw [hs]
      unfold lastBytes
      exact (List.take_append_drop _ _).symm
    · simp
  · intro bytes
    have h2 := snapshot_afterAppends C (chunks ++ [bytes])
    rw [afterAppends_snoc] at h2
    rw [hdrop, h2]
    simp

end Sip
